import Mathlib

set_option maxRecDepth 100000

/-
  Shallow embedding of src/tunnel/transport/websocket.rs (wstunnel).

  The file models:
  - `PingState` (liveness tracker): `is_ok`, `ping_inc`, `set_pong_seq`, `reset`;
  - the staging-buffer flush path of `WebsocketTunnelWrite::write` (buffer growth policy);
  - `WebsocketTunnelWrite::ping` (health gate + probe frame emission);
  - the frame-classification loop of `WebsocketTunnelRead::copy`.

  u8 counters are modelled as `Nat` with explicit bounds / `% 256` where the
  Rust code relies on 8-bit behaviour (`checked_add`, wrapping subtraction).
-/

namespace Wstunnel

/-- The `io::ErrorKind` values that appear in websocket.rs. -/
inductive ErrorKind where
  | connectionAborted
  | brokenPipe
  | notConnected
  deriving DecidableEq

/-- `PingState` from websocket.rs: two u8 sequence counters and the tolerance
window `max_diff`.  The u8 fields are modelled as `Nat`; all operations keep
them below 256 (proved as an invariant below). -/
structure PingState where
  ping_seq : Nat
  pong_seq : Nat
  max_diff : Nat
  deriving DecidableEq

/-- `PingState::new`: both counters zero, `max_diff = 3`. -/
def PingState.new : PingState := ⟨0, 0, 3⟩

/-- `PingState::reset`: zero both counters, keep `max_diff`. -/
def PingState.reset (s : PingState) : PingState :=
  { s with ping_seq := 0, pong_seq := 0 }

/-- `PingState::is_ok`: `self.ping_seq - self.pong_seq <= self.max_diff`.
The u8 subtraction is modelled with release-mode wrapping semantics
(`(a + 256 - b) % 256`); on reachable states `pong_seq ≤ ping_seq`, so it
coincides with ordinary subtraction. -/
def PingState.is_ok (s : PingState) : Bool :=
  decide ((s.ping_seq + 256 - s.pong_seq) % 256 ≤ s.max_diff)

/-- `PingState::ping_inc`: `checked_add(1)` on a u8 succeeds iff
`ping_seq < 255`; on overflow the state is reset. -/
def PingState.ping_inc (s : PingState) : PingState :=
  if s.ping_seq < 255 then { s with ping_seq := s.ping_seq + 1 }
  else s.reset

/-- `PingState::set_pong_seq`: accept `seq` iff `seq > pong_seq && seq <= ping_seq`;
then, if the counters are equal and above `u8::MAX / 2 = 127`, reset. -/
def PingState.set_pong_seq (s : PingState) (seq : Nat) : PingState :=
  let s1 := if s.pong_seq < seq ∧ seq ≤ s.ping_seq then { s with pong_seq := seq } else s
  if s1.ping_seq = s1.pong_seq ∧ 255 / 2 < s1.ping_seq then s1.reset else s1

/-- One externally visible operation on the tracker. -/
inductive PingOp where
  | probe
  | ack (seq : Nat)
  deriving DecidableEq

/-- Apply one operation. -/
def PingState.step (s : PingState) : PingOp → PingState
  | .probe => s.ping_inc
  | .ack seq => s.set_pong_seq seq

/-- Run a finite sequence of operations from the initial state. -/
def run (ops : List PingOp) : PingState :=
  ops.foldl PingState.step PingState.new

/-- A state is reachable when some operation sequence produces it. -/
def Reachable (s : PingState) : Prop := ∃ ops : List PingOp, run ops = s

/-- State invariant maintained by every operation: the counters are u8-ranged,
`pong_seq ≤ ping_seq`, `max_diff` stays 3, and the counters are never left
equal above the midpoint (the midpoint reset fires first). -/
def Inv (s : PingState) : Prop :=
  s.pong_seq ≤ s.ping_seq ∧ s.ping_seq ≤ 255 ∧ s.max_diff = 3 ∧
    (s.ping_seq = s.pong_seq → s.ping_seq ≤ 127)

/-- Modelled from the spec: the constant `MAX_PACKET_LENGTH` (initial staging
buffer capacity) is defined in `src/tunnel/transport/mod.rs`, which is not part
of the sources here.  The spec fixes it as "one maximum protocol frame payload
size (a fixed constant, e.g. 64KB-class)"; we take 64 KiB. -/
def MAX_PACKET_LENGTH : Nat := 65536

/-- The `_32_MB` constant of `WebsocketTunnelWrite::write`. -/
def _32_MB : Nat := 32 * 1024 * 1024

/-- The staging buffer (`BytesMut`): logical length and capacity. -/
structure WsBuffer where
  len : Nat
  cap : Nat
  deriving DecidableEq

/-- `WebsocketTunnelWrite::write`: send `buf[..len]` as one binary frame; on
send failure return `ConnectionAborted` (buffer untouched); on success clear
the logical length and, if the buffer was exactly full and its capacity is
below 32 MiB, grow the capacity by a quarter (`reserve` is modelled by its
guaranteed lower bound: capacity becomes exactly the requested `new_size`). -/
def bufWrite (sendOk : Bool) (b : WsBuffer) : Except ErrorKind WsBuffer :=
  let read_len := b.len
  if !sendOk then .error .connectionAborted
  else
    let buf : WsBuffer := { b with len := 0 }
    if buf.cap = read_len ∧ buf.cap < _32_MB then
      .ok { buf with cap := buf.cap + buf.cap / 4 }
    else
      .ok buf

/-- The freshly created staging buffer of `WebsocketTunnelWrite::new`:
`BytesMut::with_capacity(MAX_PACKET_LENGTH)`. -/
def initBuf : WsBuffer := ⟨0, MAX_PACKET_LENGTH⟩

/-- Fill the staging buffer to capacity through `buf_mut` (the caller appends
bytes up to the capacity), then flush with a successful send. -/
def saturatedFlush (b : WsBuffer) : WsBuffer :=
  match bufWrite true { b with len := b.cap } with
  | .ok b2 => b2
  | .error _ => b

/-- A websocket frame as sent by `WebsocketTunnelWrite::ping`:
`Frame::new(true, OpCode::Ping, None, payload)`. -/
structure PingFrame where
  fin : Bool
  payload : List Nat
  deriving DecidableEq

/-- `WebsocketTunnelWrite::ping`: if the ping state is not ok, fail with
`BrokenPipe`/"No pong received" sending nothing and leaving the state alone;
otherwise increment the probe counter and send a single-byte ping frame
carrying the new `ping_seq`.  `sendOk` models whether the underlying
`write_frame` succeeds; the third component lists the frames handed to it. -/
def pingWrite (st : PingState) (sendOk : Bool) :
    Except (ErrorKind × String) Unit × PingState × List PingFrame :=
  if !st.is_ok then (.error (.brokenPipe, "No pong received"), st, [])
  else
    let st1 := st.ping_inc
    let frame : PingFrame := ⟨true, [st1.ping_seq]⟩
    if sendOk then (.ok (), st1, [frame])
    else (.error (.brokenPipe, "send failed"), st1, [frame])

/-- A received websocket frame: opcode and payload bytes. -/
inductive ROpCode where
  | continuation
  | text
  | binary
  | close
  | ping
  | pong
  deriving DecidableEq

structure RFrame where
  opcode : ROpCode
  payload : List Nat
  deriving DecidableEq

/-- Outcome of one `WebsocketTunnelRead::copy` call. -/
inductive CopyOut where
  /-- a payload frame's bytes were forwarded to the sink and `Ok(())` returned -/
  | ok (sinkBytes : List Nat)
  /-- the call returned `Err` with this `io::ErrorKind` and message -/
  | ioError (e : ErrorKind × String)
  /-- the indexing `msg.payload[0]` was out of bounds (a Rust panic) -/
  | indexOob
  /-- the frame script ran out while the loop was still reading -/
  | pending
  deriving DecidableEq

/-- The loop body of `WebsocketTunnelRead::copy`, run over a finite script of
incoming frames: payload frames are forwarded to the sink (whose write may
fail, `sinkOk`), a close frame yields `NotConnected`/"websocket close", pings
are answered internally and skipped, and a pong feeds `payload[0]` into
`set_pong_seq` — modelling the unguarded index as `indexOob` when the payload
is empty. -/
def copy (sinkOk : Bool) (st : PingState) : List RFrame → CopyOut × PingState
  | [] => (.pending, st)
  | f :: rest =>
    match f.opcode with
    | .continuation | .text | .binary =>
      if sinkOk then (.ok f.payload, st)
      else (.ioError (.connectionAborted, "sink write failed"), st)
    | .close => (.ioError (.notConnected, "websocket close"), st)
    | .ping => copy sinkOk st rest
    | .pong =>
      match f.payload with
      | [] => (.indexOob, st)
      | b :: _ => copy sinkOk (st.set_pong_seq b) rest

/-- 128 probe/ack pairs in lockstep: probe k immediately followed by ack k. -/
def lockstepOps : List PingOp :=
  (List.range 128).flatMap (fun i => [PingOp.probe, PingOp.ack (i + 1)])

theorem inv_new : Inv PingState.new := by
  refine ⟨?_, ?_, ?_, ?_⟩ <;> simp [PingState.new, Inv]

theorem inv_step (s : PingState) (op : PingOp) (h : Inv s) : Inv (s.step op) := by
  obtain ⟨h1, h2, h3, h4⟩ := h
  cases op with
  | probe =>
    simp only [PingState.step, PingState.ping_inc, PingState.reset, Inv]
    split_ifs <;> simp <;> omega
  | ack seq =>
    simp only [PingState.step, PingState.set_pong_seq, PingState.reset, Inv]
    split_ifs <;> simp_all

theorem inv_foldl (ops : List PingOp) (s : PingState) (h : Inv s) :
    Inv (ops.foldl PingState.step s) := by
  induction ops generalizing s with
  | nil => exact h
  | cons op rest ih => exact ih _ (inv_step s op h)

theorem inv_run (ops : List PingOp) : Inv (run ops) :=
  inv_foldl ops PingState.new inv_new

theorem reachable_inv (s : PingState) (h : Reachable s) : Inv s := by
  obtain ⟨ops, rfl⟩ := h
  exact inv_run ops

/-- C2: for every finite sequence of probe/ack operations from the initial
state, the acknowledgment counter never exceeds the probe counter. -/
theorem c2_ack_never_exceeds_probe (ops : List PingOp) :
    (run ops).pong_seq ≤ (run ops).ping_seq :=
  (inv_run ops).1

/-- C1 (counterexample): the buffer ⟨len 0, cap 27104970⟩ is reachable from the
initial buffer by 27 saturated flushes; flushing it once more exactly full
(27104970 < 32 MiB) succeeds and leaves capacity 33881212, which exceeds
32 MiB = 33554432 — refuting "the capacity never exceeds 32 MiB". -/
theorem c1_capacity_counterexample :
    saturatedFlush^[27] initBuf = ⟨0, 27104970⟩ ∧
    bufWrite true ⟨27104970, 27104970⟩ = .ok ⟨0, 33881212⟩ ∧
    _32_MB < 33881212 := by
  refine ⟨by decide, rfl, by decide⟩

/-- C1 (amended): on a successful flush the logical length is cleared; if the
buffer was exactly full and its capacity below 32 MiB, the capacity grows by
25% (it may overshoot 32 MiB, but stays below 5/4 · 32 MiB = 40 MiB); in every
other case — exactly full at or above 32 MiB, or below capacity — the capacity
is unchanged. -/
theorem c1_flush_growth (b b2 : WsBuffer) (h : bufWrite true b = .ok b2) :
    b2.len = 0 ∧
    (b.len = b.cap ∧ b.cap < _32_MB →
      b2.cap = b.cap + b.cap / 4 ∧ b2.cap < 5 * _32_MB / 4) ∧
    (¬(b.len = b.cap ∧ b.cap < _32_MB) → b2.cap = b.cap) := by
  simp only [bufWrite, Bool.not_true, Bool.false_eq_true, if_false] at h
  split at h
  · rename_i hc
    simp only [Except.ok.injEq] at h
    subst h
    refine ⟨rfl, fun _ => ⟨rfl, ?_⟩, fun hn => absurd ⟨hc.1.symm, hc.2⟩ hn⟩
    have := hc.2
    simp only [_32_MB] at this ⊢
    omega
  · rename_i hc
    simp only [Except.ok.injEq] at h
    subst h
    exact ⟨rfl, fun hx => absurd ⟨hx.1.symm, hx.2⟩ hc, fun _ => rfl⟩

/-- Witness for C1 (amended): a buffer of length 4 = capacity 4 flushes to
length 0 and capacity 5 = 4 + 4/4. -/
theorem c1_flush_growth_witness :
    (WsBuffer.mk 0 5).len = 0 ∧
    (WsBuffer.mk 0 5).cap = (WsBuffer.mk 4 4).cap + (WsBuffer.mk 4 4).cap / 4 ∧
    (WsBuffer.mk 0 5).cap < 5 * _32_MB / 4 :=
  ⟨(c1_flush_growth ⟨4, 4⟩ ⟨0, 5⟩ rfl).1,
   (c1_flush_growth ⟨4, 4⟩ ⟨0, 5⟩ rfl).2.1 (by decide)⟩

/-- C3: whenever `set_pong_seq` accepts a sequence that makes the counters
equal (`seq = ping_seq`) with `ping_seq` past the midpoint 127, both counters
are reset to zero; in particular, in the reachable state ⟨130, 4⟩ an ack of
130 leaves both counters at 0. -/
theorem c3_midpoint_reset (s : PingState) (seq : Nat)
    (hgt : s.pong_seq < seq) (hle : seq ≤ s.ping_seq) (heq : seq = s.ping_seq)
    (hhalf : 127 < s.ping_seq) :
    s.set_pong_seq seq = { s with ping_seq := 0, pong_seq := 0 } ∧
    run (List.replicate 4 PingOp.probe ++ [PingOp.ack 1, PingOp.ack 4] ++
      List.replicate 126 PingOp.probe) = ⟨130, 4, 3⟩ ∧
    run (List.replicate 4 PingOp.probe ++ [PingOp.ack 1, PingOp.ack 4] ++
      List.replicate 126 PingOp.probe ++ [PingOp.ack 130]) = ⟨0, 0, 3⟩ := by
  refine ⟨?_, by decide, by decide⟩
  obtain ⟨p, q, m⟩ := s
  replace hgt : q < seq := hgt
  replace hhalf : 127 < p := hhalf
  replace heq : seq = p := heq
  subst heq
  simp [PingState.set_pong_seq, PingState.reset, hgt, hhalf]

/-- Witness for C3: acknowledging 130 in state ⟨130, 4⟩ resets both counters. -/
theorem c3_midpoint_reset_witness :
    (PingState.mk 130 4 3).set_pong_seq 130 = ⟨0, 0, 3⟩ :=
  (c3_midpoint_reset ⟨130, 4, 3⟩ 130 (by decide) (by decide) (by decide) (by decide)).1

/-- C4: three unacknowledged probes keep the tracker healthy, a fourth makes it
unhealthy, and in general (for every reachable state) `is_ok` holds exactly
when `ping_seq - pong_seq ≤ 3` under ordinary subtraction. -/
theorem c4_health_window (ops : List PingOp) :
    (run (List.replicate 3 PingOp.probe)).is_ok = true ∧
    (run (List.replicate 4 PingOp.probe)).is_ok = false ∧
    ((run ops).is_ok = true ↔ (run ops).ping_seq - (run ops).pong_seq ≤ 3) := by
  refine ⟨by decide, by decide, ?_⟩
  obtain ⟨h1, h2, h3, h4⟩ := inv_run ops
  simp only [PingState.is_ok, decide_eq_true_eq]
  omega

/-- C5 (counterexample): in the reachable state ⟨130, 4⟩ the acceptance
condition holds for seq = 130 (130 > 4 and 130 ≤ 130), yet after
`set_pong_seq 130` the acknowledgment counter is 0, not 130 — the midpoint
reset fires, refuting "sets ack_seq to seq exactly when seq > ack_seq and
seq ≤ probe_seq". -/
theorem c5_ack_counterexample :
    Reachable ⟨130, 4, 3⟩ ∧
    ((4 : Nat) < 130 ∧ (130 : Nat) ≤ 130) ∧
    ((PingState.mk 130 4 3).set_pong_seq 130).pong_seq = 0 ∧
    ((PingState.mk 130 4 3).set_pong_seq 130).pong_seq ≠ 130 :=
  ⟨⟨List.replicate 4 PingOp.probe ++ [PingOp.ack 1, PingOp.ack 4] ++
      List.replicate 126 PingOp.probe, by decide⟩,
   by decide, by decide, by decide⟩

/-- C5 (amended): on every reachable state, `set_pong_seq seq` leaves the
state unchanged when the acceptance condition `pong_seq < seq ≤ ping_seq`
fails; when it holds it sets `pong_seq := seq`, except that when additionally
`seq = ping_seq > 127` the midpoint reset fires and both counters become 0. -/
theorem c5_ack_acceptance (s : PingState) (hs : Reachable s) (seq : Nat) :
    (¬(s.pong_seq < seq ∧ seq ≤ s.ping_seq) → s.set_pong_seq seq = s) ∧
    ((s.pong_seq < seq ∧ seq ≤ s.ping_seq) → ¬(seq = s.ping_seq ∧ 127 < seq) →
      s.set_pong_seq seq = { s with pong_seq := seq }) ∧
    ((s.pong_seq < seq ∧ seq ≤ s.ping_seq) → (seq = s.ping_seq ∧ 127 < seq) →
      s.set_pong_seq seq = PingState.new) := by
  obtain ⟨p, q, m⟩ := s
  obtain ⟨h1, h2, h3, h4⟩ := reachable_inv ⟨p, q, m⟩ hs
  replace h1 : q ≤ p := h1
  replace h3 : m = 3 := h3
  replace h4 : p = q → p ≤ 127 := h4
  subst h3
  refine ⟨?_, ?_, ?_⟩
  · intro hn
    replace hn : ¬(q < seq ∧ seq ≤ p) := hn
    have hB : ¬(p = q ∧ 127 < p) := by
      rintro ⟨hq, hlt⟩
      have := h4 hq
      omega
    simp [PingState.set_pong_seq, PingState.reset, hn, hB]
  · intro hA hnr
    replace hA : q < seq ∧ seq ≤ p := hA
    replace hnr : ¬(seq = p ∧ 127 < seq) := hnr
    have hB : ¬(p = seq ∧ 127 < p) := by
      rintro ⟨hq, hlt⟩
      exact hnr ⟨hq.symm, by omega⟩
    simp [PingState.set_pong_seq, PingState.reset, hA, hB]
  · intro hA hr
    replace hA : q < seq ∧ seq ≤ p := hA
    replace hr : seq = p ∧ 127 < seq := hr
    obtain ⟨rfl, hlt⟩ := hr
    simp [PingState.set_pong_seq, PingState.reset, PingState.new, hA, hlt]

/-- Witness for C5 (amended), exercising all three branches on reachable
states: a stale ack is ignored, an in-window ack below the midpoint lands, and
an ack meeting the midpoint condition resets to the initial state. -/
theorem c5_ack_acceptance_witness :
    (PingState.mk 130 4 3).set_pong_seq 2 = ⟨130, 4, 3⟩ ∧
    (PingState.mk 130 4 3).set_pong_seq 7 = ⟨130, 7, 3⟩ ∧
    (PingState.mk 130 4 3).set_pong_seq 130 = PingState.new :=
  ⟨(c5_ack_acceptance ⟨130, 4, 3⟩ ⟨List.replicate 4 PingOp.probe ++
      [PingOp.ack 1, PingOp.ack 4] ++ List.replicate 126 PingOp.probe, by decide⟩ 2).1
      (by decide),
   (c5_ack_acceptance ⟨130, 4, 3⟩ ⟨List.replicate 4 PingOp.probe ++
      [PingOp.ack 1, PingOp.ack 4] ++ List.replicate 126 PingOp.probe, by decide⟩ 7).2.1
      (by decide) (by decide),
   (c5_ack_acceptance ⟨130, 4, 3⟩ ⟨List.replicate 4 PingOp.probe ++
      [PingOp.ack 1, PingOp.ack 4] ++ List.replicate 126 PingOp.probe, by decide⟩ 130).2.2
      (by decide) (by decide)⟩

/-- C6: `ping_inc` increments `ping_seq` whenever it is below 255, and resets
both counters to zero when `ping_seq` is 255 (the u8 increment would
overflow). -/
theorem c6_probe_increment (s : PingState) :
    (s.ping_seq < 255 → s.ping_inc = { s with ping_seq := s.ping_seq + 1 }) ∧
    (s.ping_seq = 255 → s.ping_inc = { s with ping_seq := 0, pong_seq := 0 }) := by
  constructor
  · intro h
    simp only [PingState.ping_inc, if_pos h]
  · intro h
    simp only [PingState.ping_inc, PingState.reset, h]
    simp

/-- Witness for C6: incrementing at 3 gives 4; incrementing at 255 resets. -/
theorem c6_probe_increment_witness :
    (PingState.mk 3 1 3).ping_inc = ⟨4, 1, 3⟩ ∧
    (PingState.mk 255 9 3).ping_inc = ⟨0, 0, 3⟩ :=
  ⟨(c6_probe_increment ⟨3, 1, 3⟩).1 (by decide),
   (c6_probe_increment ⟨255, 9, 3⟩).2 (by decide)⟩

/-- C7: `ping` first checks health; when unhealthy it returns the BrokenPipe
"No pong received" error (a kind distinct from ConnectionAborted) sending no
frame and leaving the tracker unchanged; when healthy it advances the tracker
by `ping_inc` and sends exactly one final ping frame whose single payload byte
is the new probe sequence number, returning Ok when the send succeeds. -/
theorem c7_ping_gate (st : PingState) (sendOk : Bool) :
    (st.is_ok = false →
      pingWrite st sendOk = (.error (.brokenPipe, "No pong received"), st, []) ∧
      ErrorKind.brokenPipe ≠ ErrorKind.connectionAborted) ∧
    (st.is_ok = true →
      (pingWrite st sendOk).2.1 = st.ping_inc ∧
      (pingWrite st sendOk).2.2 = [⟨true, [st.ping_inc.ping_seq]⟩] ∧
      (sendOk = true → (pingWrite st sendOk).1 = .ok ())) := by
  constructor
  · intro h
    exact ⟨by simp [pingWrite, h], by decide⟩
  · intro h
    cases sendOk <;> simp [pingWrite, h]

/-- Witness for C7: in the unhealthy state ⟨4, 0⟩ the call fails with
BrokenPipe and sends nothing; in the healthy state ⟨2, 0⟩ it sends one ping
frame with payload byte 3 and succeeds. -/
theorem c7_ping_gate_witness :
    (pingWrite ⟨4, 0, 3⟩ true = (.error (.brokenPipe, "No pong received"), ⟨4, 0, 3⟩, []) ∧
      ErrorKind.brokenPipe ≠ ErrorKind.connectionAborted) ∧
    ((pingWrite ⟨2, 0, 3⟩ true).2.1 = ⟨3, 0, 3⟩ ∧
      (pingWrite ⟨2, 0, 3⟩ true).2.2 = [⟨true, [3]⟩] ∧
      (pingWrite ⟨2, 0, 3⟩ true).1 = .ok ()) :=
  ⟨(c7_ping_gate ⟨4, 0, 3⟩ true).1 (by decide),
   ((c7_ping_gate ⟨2, 0, 3⟩ true).2 (by decide)).1,
   ((c7_ping_gate ⟨2, 0, 3⟩ true).2 (by decide)).2.1,
   ((c7_ping_gate ⟨2, 0, 3⟩ true).2 (by decide)).2.2 rfl⟩

/-- C8: driving 128 probe/ack pairs in lockstep keeps the tracker healthy
after every single step, both counters are 0 after the 128th pair, and after
every earlier pair k (1 ≤ k ≤ 127) the counters sit at k — so the reset
happens exactly at the 128th pair. -/
theorem c8_lockstep :
    ((List.range 257).all (fun k => (run (lockstepOps.take k)).is_ok)) = true ∧
    run lockstepOps = PingState.new ∧
    ((List.range 127).all (fun k =>
      ((run (lockstepOps.take (2 * (k + 1)))).ping_seq == k + 1) &&
      ((run (lockstepOps.take (2 * (k + 1)))).pong_seq == k + 1))) = true := by
  refine ⟨by decide, by decide, by decide⟩

/-- C9: a close frame makes `copy` return the NotConnected "websocket close"
error, whose kind differs from the ConnectionAborted kind used for read/write
failures; a continuation, text or binary frame makes `copy` forward exactly
that frame's payload bytes to the sink and return success. -/
theorem c9_close_and_payload (st : PingState) (p : List Nat) (rest : List RFrame)
    (op : ROpCode) (hop : op = .continuation ∨ op = .text ∨ op = .binary) :
    copy true st (⟨.close, p⟩ :: rest) =
      (.ioError (.notConnected, "websocket close"), st) ∧
    ErrorKind.notConnected ≠ ErrorKind.connectionAborted ∧
    copy true st (⟨op, p⟩ :: rest) = (.ok p, st) := by
  refine ⟨by simp [copy], by decide, ?_⟩
  rcases hop with rfl | rfl | rfl <;> simp [copy]

/-- Witness for C9: a close frame yields the peer-closed error; a binary frame
with payload [7, 8] forwards exactly [7, 8]. -/
theorem c9_close_and_payload_witness :
    copy true PingState.new [⟨.close, []⟩] =
      (.ioError (.notConnected, "websocket close"), PingState.new) ∧
    ErrorKind.notConnected ≠ ErrorKind.connectionAborted ∧
    copy true PingState.new [⟨.binary, [7, 8]⟩] = (.ok [7, 8], PingState.new) :=
  ⟨(c9_close_and_payload PingState.new [] [] ROpCode.binary
      (Or.inr (Or.inr rfl))).1,
   (c9_close_and_payload PingState.new [7, 8] [] ROpCode.binary
      (Or.inr (Or.inr rfl))).2.1,
   (c9_close_and_payload PingState.new [7, 8] [] ROpCode.binary
      (Or.inr (Or.inr rfl))).2.2⟩

/-- C10: under the precondition that every pong frame in the incoming script
carries at least one payload byte, the unguarded `payload[0]` access of the
pong branch is always in bounds: `copy` never reaches the out-of-bounds
outcome. -/
theorem c10_pong_payload_access (sinkOk : Bool) (st : PingState) (frames : List RFrame)
    (h : ∀ f ∈ frames, f.opcode = ROpCode.pong → f.payload ≠ []) :
    (copy sinkOk st frames).1 ≠ CopyOut.indexOob := by
  revert h
  induction frames generalizing st with
  | nil =>
    intro _
    simp [copy]
  | cons f rest ih =>
    intro h
    obtain ⟨op, payload⟩ := f
    have hrest : ∀ g ∈ rest, g.opcode = ROpCode.pong → g.payload ≠ [] :=
      fun g hg => h g (List.mem_cons_of_mem _ hg)
    cases op with
    | continuation => cases sinkOk <;> simp [copy]
    | text => cases sinkOk <;> simp [copy]
    | binary => cases sinkOk <;> simp [copy]
    | close => simp [copy]
    | ping => simpa [copy] using ih st hrest
    | pong =>
      have hp : (RFrame.mk ROpCode.pong payload).payload ≠ [] :=
        h ⟨ROpCode.pong, payload⟩ (List.mem_cons_self _ _) rfl
      cases payload with
      | nil => exact absurd rfl hp
      | cons b bs => simpa [copy] using ih (st.set_pong_seq b) hrest

/-- Witness for C10: a pong frame with payload [5] followed by a binary frame
is processed without hitting the out-of-bounds branch. -/
theorem c10_pong_payload_access_witness :
    (copy true PingState.new [⟨ROpCode.pong, [5]⟩, ⟨ROpCode.binary, [1]⟩]).1 ≠
      CopyOut.indexOob :=
  c10_pong_payload_access true PingState.new
    [⟨ROpCode.pong, [5]⟩, ⟨ROpCode.binary, [1]⟩] (by decide)

end Wstunnel
